import Mathlib

/-!
Verification of the Plot_Vmaf metric-plotting pipeline (`src/vmaftools/cli.py`)
against its natural-language specification.

The per-frame metric samples are modelled as exact rationals (`ℚ`): every
finite double is a rational, and the program only compares, adds, divides and
truncates sample values.  FFmpeg's sentinel for an infinite metric value,
`1.7976931348623157e+308`, parses to the largest finite double,
`(2^53 - 1) * 2^971`, which is the distinguished constant `MAX_DOUBLE` below.
Python's `float('inf')` has no rational counterpart; the sentinel constant is
the in-band representation the program actually tests for.

Fallible Python code (exceptions: `KeyError`, `IndexError`, raising
`ValueError`/`StatisticsError`) is modelled with `Except`/`Option` results.
-/

set_option maxRecDepth 4000

deriving instance DecidableEq for Except

/-- Python `int(q)` on a float/rational: truncation toward zero. -/
def pyInt (q : ℚ) : ℤ := if 0 ≤ q then ⌊q⌋ else ⌈q⌉

/-- Python `round(q)` to an integer: round half to even (banker's rounding).
The fractional part `q − ⌊q⌋` is compared with 1/2, phrased here as `2q`
against `2⌊q⌋ + 1` (same truth values, kept subtraction-free). -/
def pyRoundInt (q : ℚ) : ℤ :=
  if 2 * q < 2 * (⌊q⌋ : ℚ) + 1 then ⌊q⌋
  else if 2 * q > 2 * (⌊q⌋ : ℚ) + 1 then ⌊q⌋ + 1
  else if 2 ∣ ⌊q⌋ then ⌊q⌋ else ⌊q⌋ + 1

/-- Python `round(q, n)`: round half to even at `n` decimal digits. -/
def pyRound (q : ℚ) (n : ℕ) : ℚ := (pyRoundInt (q * 10 ^ n) : ℚ) / 10 ^ n

/-- `statistics.mean` / `sum(l)/len(l)` (callers guard against empty lists). -/
def pyMean (l : List ℚ) : ℚ := l.sum / (l.length : ℚ)

/-- Python `min` of a non-empty list (callers guard against empty lists). -/
def pyMin (l : List ℚ) : ℚ :=
  match l with
  | [] => 0
  | x :: xs => xs.foldl min x

/-- Python `max` of a non-empty list (callers guard against empty lists). -/
def pyMax (l : List ℚ) : ℚ :=
  match l with
  | [] => 0
  | x :: xs => xs.foldl max x

/-- `statistics.harmonic_mean`: raises on an empty list or a negative value
(`none`), returns 0 when some value is 0, else `n / Σ 1/xᵢ`. -/
def pyHarmonicMean (l : List ℚ) : Option ℚ :=
  if l = [] ∨ l.any (fun x => decide (x < 0)) then none
  else if l.any (fun x => decide (x = 0)) then some 0
  else some ((l.length : ℚ) / (l.map (fun x => 1 / x)).sum)

/-- FFmpeg's sentinel for an infinite metric value: the literal
`1.7976931348623157e+308` of the source, i.e. the largest finite double
`(2^53 − 1) · 2^971`, written out as an integer literal so that it evaluates. -/
def MAX_DOUBLE : ℚ := 179769313486231570814527423731704356798070567525844996598917476803157260780028538760589558632766878171540458953514382464234321326889464182768467546703537516986049910576551282076245490090389328944075868508455133942304583236903222948165808559332123348274797826204144723168738177180919299881250404026184124858368

/-- Python `sorted` on rationals. -/
def sortQ (l : List ℚ) : List ℚ := l.insertionSort (· ≤ ·)

/-- Lower order statistic used by linear interpolation: `a[floor(r)]`. -/
def interpLo (s : List ℚ) (r : ℚ) : ℚ := s.getD (⌊r⌋).toNat 0

/-- Upper order statistic used by linear interpolation: `a[floor(r)+1]` when
it exists, else the lower one. -/
def interpHi (s : List ℚ) (r : ℚ) : ℚ :=
  if (⌊r⌋).toNat + 1 < s.length then s.getD ((⌊r⌋).toNat + 1) 0 else interpLo s r

/-- Linear interpolation at virtual index `r` over the list `s`:
`a[i] + frac · (a[i+1] − a[i])` with `i = floor(r)`. -/
def interpolate (s : List ℚ) (r : ℚ) : ℚ :=
  interpLo s r + (r - (⌊r⌋ : ℚ)) * (interpHi s r - interpLo s r)

/-- `np.percentile(l, q)` with the default linear interpolation: sort, then
interpolate at virtual index `q/100 · (n − 1)`. -/
def percentile (l : List ℚ) (q : ℚ) : ℚ :=
  interpolate (sortQ l) (q / 100 * ((sortQ l).length - 1))

/-- The metric names accepted by the CLI (`choices` of `-m`). -/
inductive MetricKind where
  | VMAF
  | PSNR
  | SSIM
  | XPSNR
  deriving DecidableEq

/-- The filtering comprehension of `plot_metric`:
`[s for s in scores if s != MAX_DOUBLE and s != float('inf') and s > 0 and s < 100]`.
(`float('inf')` is not a finite double, hence not representable here; the
sentinel `MAX_DOUBLE` is the finite stand-in the logs actually contain.) -/
def filterScores (scores : List ℚ) : List ℚ :=
  scores.filter (fun s => decide (s ≠ MAX_DOUBLE) && decide (0 < s) && decide (s < 100))

/-- The Filter as the spec describes it (metric-kind-specific): PSNR and XPSNR
drop a sample iff it equals the sentinel, is ≤ 0, or is ≥ 100; VMAF and SSIM
series pass unchanged.  Stated from the spec's words, to be compared with the
source's `filterScores`. -/
def specFilter (m : MetricKind) (scores : List ℚ) : List ℚ :=
  match m with
  | .PSNR | .XPSNR =>
    scores.filter (fun s => !(decide (s = MAX_DOUBLE) || decide (s ≤ 0) || decide (100 ≤ s)))
  | .VMAF | .SSIM => scores

/-- Summary statistics of the single-series path of `plot_metric`. -/
structure SingleStats where
  mean : ℚ
  p1 : ℚ
  p25 : ℚ
  p75 : ℚ
  deriving DecidableEq

/-- `plot_metric`'s statistics: mean and the 1st/25th/75th percentiles of the
(already filtered) series, each rounded to 3 decimals. -/
def summaryOf (l : List ℚ) : SingleStats :=
  ⟨pyRound (pyMean l) 3, pyRound (percentile l 1) 3,
   pyRound (percentile l 25) 3, pyRound (percentile l 75) 3⟩

/-- The XPSNR branch of `plot_metric`:
`min_val = max(20, int(min(scores) - 1))`, `max_val = min(60, int(max(scores) + 1))`,
`step = 5 if (max_val - min_val) > 20 else 2`; returns `(min_val, max_val, step)`. -/
def xpsnrScale (scores : List ℚ) : ℤ × ℤ × ℤ :=
  (max 20 (pyInt (pyMin scores - 1)), min 60 (pyInt (pyMax scores + 1)),
   if min 60 (pyInt (pyMax scores + 1)) - max 20 (pyInt (pyMin scores - 1)) > 20 then 5 else 2)

/-- The XPSNR scale plan as the spec/claim words it:
lower `= max(20, ⌊min⌋ − 1)`, upper `= min(60, ⌈max⌉ + 1)`, step 5 iff the span
exceeds 20.  Stated from the spec's words, to be compared with `xpsnrScale`. -/
def specXpsnrScale (scores : List ℚ) : ℤ × ℤ × ℤ :=
  (max 20 (⌊pyMin scores⌋ - 1), min 60 (⌈pyMax scores⌉ + 1),
   if min 60 (⌈pyMax scores⌉ + 1) - max 20 (⌊pyMin scores⌋ - 1) > 20 then 5 else 2)

/-- `plot_metric` fails with `ValueError(f"No valid {metric} scores found")`. -/
inductive PlotError where
  | emptySeries (metric : MetricKind)
  deriving DecidableEq

/-- Per-metric y-axis limits and (major) grid step of `plot_metric`:
VMAF `(int(p1), 100)`, SSIM `(p1, 1.0)`, XPSNR from `xpsnrScale`,
PSNR (the default branch) `(int(p1), max(scores))`; major grid every 5 units
except XPSNR's adaptive step. -/
def scalePlan (fs : List ℚ) (st : SingleStats) : MetricKind → (ℚ × ℚ) × ℤ
  | .VMAF => (((pyInt st.p1 : ℚ), 100), 5)
  | .SSIM => ((st.p1, 1), 5)
  | .XPSNR => ((((xpsnrScale fs).1 : ℚ), ((xpsnrScale fs).2.1 : ℚ)), (xpsnrScale fs).2.2)
  | .PSNR => (((pyInt st.p1 : ℚ), pyMax fs), 5)

/-- The data of the single-series chart written by `plot_metric`: the plotted
(filtered) series, its statistics, the y-axis limits and the major grid step. -/
structure SinglePlot where
  series : List ℚ
  stats : SingleStats
  ylim : ℚ × ℚ
  gridStep : ℤ
  deriving DecidableEq

/-- `plot_metric(scores, metric)`: filter, fail on an empty result, else
compute statistics over the filtered series and build the chart data. -/
def plotMetric (scores : List ℚ) (metric : MetricKind) : Except PlotError SinglePlot :=
  if filterScores scores = [] then .error (.emptySeries metric)
  else
    .ok ⟨filterScores scores, summaryOf (filterScores scores),
         (scalePlan (filterScores scores) (summaryOf (filterScores scores)) metric).1,
         (scalePlan (filterScores scores) (summaryOf (filterScores scores)) metric).2⟩

/-- One legend entry of `plot_multi_metrics`: the plotted (raw) series with
its statistics — mean and harmonic mean rounded to 2 decimals, percentiles of
the sorted series rounded to 3 decimals. -/
structure MultiEntry where
  series : List ℚ
  amean : ℚ
  hmean : ℚ
  p1 : ℚ
  p25 : ℚ
  p75 : ℚ
  deriving DecidableEq

/-- The per-series body of `plot_multi_metrics`'s loop: statistics are taken
over the series exactly as passed in (no filtering); `harmonic_mean` can raise
(`none`). -/
def multiSummary (vmaf : List ℚ) : Option MultiEntry :=
  match pyHarmonicMean vmaf with
  | none => none
  | some h =>
    some ⟨vmaf, pyRound (pyMean vmaf) 2, pyRound h 2, pyRound (percentile vmaf 1) 3,
          pyRound (percentile vmaf 25) 3, pyRound (percentile vmaf 75) 3⟩

/-- Run `multiSummary` over every series, aborting on the first exception
(the Python loop dies on the first raising series). -/
def collectSummaries : List (List ℚ) → Option (List MultiEntry)
  | [] => some []
  | v :: t =>
    match multiSummary v, collectSummaries t with
    | some e, some es => some (e :: es)
    | _, _ => none

/-- The rounded 1st percentile of one series, as `plot_multi_metrics` computes
it for the shared y-axis lower bound. -/
def seriesP1 (v : List ℚ) : ℚ := pyRound (percentile v 1) 3

/-- The running minimum of `plot_multi_metrics`: `ymin` starts at 100 and is
lowered to each series' 1st percentile that undercuts it. -/
def multiYminRaw (scoress : List (List ℚ)) : ℚ :=
  scoress.foldl (fun y v => if y > seriesP1 v then seriesP1 v else y) 100

/-- The shared y-axis of `plot_multi_metrics`:
`if ymin > 90: ymin = 90` and then `plt.ylim(int(ymin), 100)`. -/
def plotMultiYlim (scoress : List (List ℚ)) : ℤ × ℤ :=
  (pyInt (if multiYminRaw scoress > 90 then 90 else multiYminRaw scoress), 100)

/-- The data of the overlay chart written by `plot_multi_metrics`: one legend
entry per series plus the shared y-axis limits. -/
structure MultiPlot where
  entries : List MultiEntry
  ylim : ℤ × ℤ
  deriving DecidableEq

/-- `plot_multi_metrics(scores, ...)`: per-series statistics over the raw
series, shared y-axis; `none` models a raised exception. -/
def plotMultiMetrics (scoress : List (List ℚ)) : Option MultiPlot :=
  match collectSummaries scoress with
  | none => none
  | some es => some ⟨es, plotMultiYlim scoress⟩

/-- A frame's metric bag, with one optional slot per key the program reads
(`frame['metrics'].get(k)` / `frame['metrics'][k]`). -/
structure FrameMetrics where
  vmaf : Option ℚ
  psnr : Option ℚ
  ssim : Option ℚ
  xpsnr : Option ℚ
  xpsnr_u : Option ℚ
  xpsnr_v : Option ℚ
  deriving DecidableEq

/-- The rejection reasons of `validate_metrics` (one per `return False`
diagnostic). -/
inductive Reason where
  | missing_vmaf
  | suspicious_vmaf
  | xpsnr_sentinel_overflow
  | xpsnr_chroma_zero
  | xpsnr_out_of_range
  deriving DecidableEq

/-- The verdict of `validate_metrics` (`True` / `False` with its diagnostic). -/
inductive Verdict where
  | accepted
  | rejected (r : Reason)
  deriving DecidableEq

/-- Python exceptions the validator can raise instead of returning. -/
inductive PyErr where
  | keyError
  | indexError
  deriving DecidableEq

/-- One XPSNR sample is invalid iff it equals the sentinel or is ≤ 0
(`metrics['xpsnr'] == MAX_DOUBLE or metrics['xpsnr'] <= 0`). -/
def xpsnrInvalidB (x : ℚ) : Bool := decide (x = MAX_DOUBLE) || decide (x ≤ 0)

/-- One iteration of the XPSNR validation loop: reads `metrics['xpsnr']`,
`metrics['xpsnr_u']` and (only when the latter is 0, by short-circuiting)
`metrics['xpsnr_v']`; any missing key raises `KeyError`.  Returns (sample is
invalid, the sample when valid, both chroma components are zero). -/
def xpsnrFrameCheck (m : FrameMetrics) : Except PyErr (Bool × Option ℚ × Bool) :=
  match m.xpsnr with
  | none => .error .keyError
  | some x =>
    match m.xpsnr_u with
    | none => .error .keyError
    | some u =>
      if u = 0 then
        match m.xpsnr_v with
        | none => .error .keyError
        | some v =>
          .ok (xpsnrInvalidB x, if xpsnrInvalidB x then none else some x, decide (v = 0))
      else
        .ok (xpsnrInvalidB x, if xpsnrInvalidB x then none else some x, false)

/-- The XPSNR validation loop over all frames: accumulates the invalid-sample
count, the valid samples in frame order, and the zero-chroma frame count;
propagates the first exception. -/
def xpsnrScan : List FrameMetrics → Except PyErr (ℕ × List ℚ × ℕ)
  | [] => .ok (0, [], 0)
  | f :: rest =>
    match xpsnrFrameCheck f with
    | .error e => .error e
    | .ok (inv, xo, zuv) =>
      match xpsnrScan rest with
      | .error e => .error e
      | .ok (ic, xs, zc) =>
        .ok ((if inv then 1 else 0) + ic, xo.toList ++ xs, (if zuv then 1 else 0) + zc)

/-- The decision taken after the XPSNR loop: sentinel ratio
(`invalid_count > frame_count * 0.1`), chroma degeneracy
(`zero_uv_count == frame_count`), plausible mean range (only when some valid
sample remains: mean within [20, 60]). -/
def xpsnrVerdict (frame_count : ℕ) : ℕ × List ℚ × ℕ → Verdict
  | (invalid_count, xpsnr_scores, zero_uv_count) =>
    if (invalid_count : ℚ) > (frame_count : ℚ) * (1 / 10) then
      .rejected .xpsnr_sentinel_overflow
    else if zero_uv_count = frame_count then
      .rejected .xpsnr_chroma_zero
    else if xpsnr_scores ≠ [] ∧ (pyMean xpsnr_scores < 20 ∨ pyMean xpsnr_scores > 60) then
      .rejected .xpsnr_out_of_range
    else
      .accepted

/-- `validate_metrics(json_data)`: VMAF presence (`.get` never raises,
`not vmaf_scores or None in vmaf_scores`), VMAF plausibility
(`mean < 10 or max < 20`), then — only if the first frame's bag has the
`xpsnr` key — the XPSNR loop and its decision.  `frames[0]` on an empty frame
list would raise `IndexError`. -/
def validate_metrics (frames : List FrameMetrics) : Except PyErr Verdict :=
  if frames.map FrameMetrics.vmaf = [] ∨ none ∈ frames.map FrameMetrics.vmaf then
    .ok (.rejected .missing_vmaf)
  else if pyMean (frames.filterMap FrameMetrics.vmaf) < 10 ∨
      pyMax (frames.filterMap FrameMetrics.vmaf) < 20 then
    .ok (.rejected .suspicious_vmaf)
  else
    match frames.head? with
    | none => .error .indexError
    | some f0 =>
      if (FrameMetrics.xpsnr f0).isSome then
        Except.map (xpsnrVerdict frames.length) (xpsnrScan frames)
      else
        .ok .accepted

/-- `frame['metrics'][metric_key]` for the requested metric
(`metric_key = metric.lower()`). -/
def metricValue (f : FrameMetrics) : MetricKind → Option ℚ
  | .VMAF => f.vmaf
  | .PSNR => f.psnr
  | .SSIM => f.ssim
  | .XPSNR => f.xpsnr

/-- The extraction comprehension of `main`:
`[x["metrics"][metric_key] for x in jsn["frames"]]`; a missing key raises
(`none`). -/
def extractSeries (m : MetricKind) : List FrameMetrics → Option (List ℚ)
  | [] => some []
  | f :: rest =>
    match metricValue f m, extractSeries m rest with
    | some x, some xs => some (x :: xs)
    | _, _ => none

/-- The ways one pipeline invocation aborts before a chart is saved. -/
inductive MainErr where
  | validationError (e : PyErr)
  | validationRejected (r : Reason)
  | missingMetric
  | plotFailed (e : PlotError)
  | statsError
  | indexError
  deriving DecidableEq

/-- Per-file body of `main`'s inner loop: validate (a `False` verdict exits
the program), then extract the requested metric's series. -/
def loadChecked (frames : List FrameMetrics) (m : MetricKind) : Except MainErr (List ℚ) :=
  match validate_metrics frames with
  | .error e => .error (.validationError e)
  | .ok (.rejected r) => .error (.validationRejected r)
  | .ok .accepted =>
    match extractSeries m frames with
    | none => .error .missingMetric
    | some s => .ok s

/-- `main`'s inner loop over the input files for one metric: builds `to_plot`
(one series per file), aborting on the first failure. -/
def loadAll (files : List (List FrameMetrics)) (m : MetricKind) : Except MainErr (List (List ℚ)) :=
  match files with
  | [] => .ok []
  | fs :: rest =>
    match loadChecked fs m with
    | .error e => .error e
    | .ok s =>
      match loadAll rest m with
      | .error e => .error e
      | .ok ss => .ok (s :: ss)

/-- The chart a run of `main`'s per-metric body saves. -/
inductive ChartOutput where
  | single (p : SinglePlot)
  | multi (p : MultiPlot)
  deriving DecidableEq

/-- The per-metric body of `main`: load and validate every input file, then
dispatch — `plot_metric(to_plot[0], metric)` when exactly one metric was
requested (`len(args.metrics) == 1`), else `plot_multi_metrics(to_plot, ...)`.
`metricCount` is `len(args.metrics)`. -/
def processMetric (metricCount : ℕ) (files : List (List FrameMetrics))
    (m : MetricKind) : Except MainErr ChartOutput :=
  match loadAll files m with
  | .error e => .error e
  | .ok to_plot =>
    if metricCount = 1 then
      match to_plot.head? with
      | none => .error .indexError
      | some first =>
        match plotMetric first m with
        | .error e => .error (.plotFailed e)
        | .ok p => .ok (.single p)
    else
      match plotMultiMetrics to_plot with
      | none => .error .statsError
      | some p => .ok (.multi p)


/-! ### Helper lemmas about the numeric primitives -/

theorem foldl_min_le_init (a : ℚ) (l : List ℚ) : l.foldl min a ≤ a := by
  induction l generalizing a with
  | nil => exact le_refl a
  | cons x t ih => exact le_trans (ih (min a x)) (min_le_left a x)

theorem foldl_min_le_mem (a : ℚ) (l : List ℚ) {x : ℚ} (hx : x ∈ l) : l.foldl min a ≤ x := by
  induction l generalizing a with
  | nil => cases hx
  | cons y t ih =>
    rcases List.mem_cons.mp hx with rfl | hx2
    · exact le_trans (foldl_min_le_init (min a x) t) (min_le_right a x)
    · exact ih (min a y) hx2

theorem foldl_min_mem_cons (a : ℚ) (l : List ℚ) : l.foldl min a = a ∨ l.foldl min a ∈ l := by
  induction l generalizing a with
  | nil => exact Or.inl rfl
  | cons x t ih =>
    rcases ih (min a x) with h | h
    · rcases min_choice a x with h2 | h2
      · exact Or.inl (by rw [List.foldl_cons, h, h2])
      · exact Or.inr (by rw [List.foldl_cons, h, h2]; exact List.mem_cons_self x t)
    · exact Or.inr (List.mem_cons_of_mem x h)

theorem foldl_max_init_le (a : ℚ) (l : List ℚ) : a ≤ l.foldl max a := by
  induction l generalizing a with
  | nil => exact le_refl a
  | cons x t ih => exact le_trans (le_max_left a x) (ih (max a x))

theorem pyMin_pos (l : List ℚ) (h1 : l ≠ []) (h2 : ∀ x ∈ l, 0 < x) : 0 < pyMin l := by
  match l with
  | [] => exact absurd rfl h1
  | x :: xs =>
    show 0 < xs.foldl min x
    rcases foldl_min_mem_cons x xs with h | h
    · rw [h]; exact h2 x (List.mem_cons_self x xs)
    · exact h2 _ (List.mem_cons_of_mem x h)

theorem pyMax_pos (l : List ℚ) (h1 : l ≠ []) (h2 : ∀ x ∈ l, 0 < x) : 0 < pyMax l := by
  match l with
  | [] => exact absurd rfl h1
  | x :: xs =>
    show 0 < xs.foldl max x
    exact lt_of_lt_of_le (h2 x (List.mem_cons_self x xs)) (foldl_max_init_le x xs)

theorem pyRoundInt_ge_floor (q : ℚ) : ⌊q⌋ ≤ pyRoundInt q := by
  unfold pyRoundInt
  split_ifs <;> omega

theorem pyRoundInt_le_floor_add_one (q : ℚ) : pyRoundInt q ≤ ⌊q⌋ + 1 := by
  unfold pyRoundInt
  split_ifs <;> omega

theorem pyRoundInt_mono {q r : ℚ} (h : q ≤ r) : pyRoundInt q ≤ pyRoundInt r := by
  rcases lt_or_eq_of_le (Int.floor_le_floor h) with hlt | heq
  · calc pyRoundInt q ≤ ⌊q⌋ + 1 := pyRoundInt_le_floor_add_one q
      _ ≤ ⌊r⌋ := hlt
      _ ≤ pyRoundInt r := pyRoundInt_ge_floor r
  · unfold pyRoundInt
    rw [heq]
    split_ifs <;> first | omega | (exfalso; linarith)

theorem pyRound_mono (n : ℕ) {q r : ℚ} (h : q ≤ r) : pyRound q n ≤ pyRound r n := by
  unfold pyRound
  have hp : (0 : ℚ) < 10 ^ n := by positivity
  refine (div_le_div_right hp).mpr ?_
  exact_mod_cast pyRoundInt_mono (mul_le_mul_of_nonneg_right h (le_of_lt hp))

theorem sorted_getD_mono {s : List ℚ} (hs : List.Sorted (· ≤ ·) s) {i j : ℕ}
    (hij : i ≤ j) (hj : j < s.length) : s.getD i 0 ≤ s.getD j 0 := by
  have hi : i < s.length := lt_of_le_of_lt hij hj
  rw [List.getD_eq_get s 0 hi, List.getD_eq_get s 0 hj]
  exact hs.rel_get_of_le (Fin.mk_le_mk.mpr hij)

theorem interpLo_le_interpHi {s : List ℚ} (hs : List.Sorted (· ≤ ·) s) (r : ℚ) :
    interpLo s r ≤ interpHi s r := by
  unfold interpHi interpLo
  split_ifs with hlt
  · exact sorted_getD_mono hs (Nat.le_succ _) hlt
  · exact le_refl _

theorem interpolate_mono {s : List ℚ} (hs : List.Sorted (· ≤ ·) s)
    {r1 r2 : ℚ} (h0 : 0 ≤ r1) (h12 : r1 ≤ r2) (h2 : r2 ≤ (s.length : ℚ) - 1) :
    interpolate s r1 ≤ interpolate s r2 := by
  have hf1 : (0 : ℤ) ≤ ⌊r1⌋ := Int.le_floor.mpr (by exact_mod_cast h0)
  have hff : ⌊r1⌋ ≤ ⌊r2⌋ := Int.floor_le_floor h12
  have hf2 : (0 : ℤ) ≤ ⌊r2⌋ := le_trans hf1 hff
  have hr2top : ⌊r2⌋ ≤ (s.length : ℤ) - 1 := by
    have h3 : ⌊r2⌋ ≤ ⌊(s.length : ℚ) - 1⌋ := Int.floor_le_floor h2
    have h4 : ⌊(s.length : ℚ) - 1⌋ = (s.length : ℤ) - 1 := by
      rw [show ((s.length : ℚ) - 1) = (((s.length : ℤ) - 1 : ℤ) : ℚ) by push_cast; ring]
      exact Int.floor_intCast _
    rw [h4] at h3
    exact h3
  have hc1 : ((⌊r1⌋.toNat : ℤ)) = ⌊r1⌋ := Int.toNat_of_nonneg hf1
  have hc2 : ((⌊r2⌋.toNat : ℤ)) = ⌊r2⌋ := Int.toNat_of_nonneg hf2
  have hi2len : ⌊r2⌋.toNat < s.length := by omega
  have hg1a : 0 ≤ r1 - (⌊r1⌋ : ℚ) := sub_nonneg.mpr (Int.floor_le r1)
  have hg1b : r1 - (⌊r1⌋ : ℚ) ≤ 1 := by have := Int.lt_floor_add_one r1; linarith
  have hg2a : 0 ≤ r2 - (⌊r2⌋ : ℚ) := sub_nonneg.mpr (Int.floor_le r2)
  have hlohi1 : interpLo s r1 ≤ interpHi s r1 := interpLo_le_interpHi hs r1
  have hlohi2 : interpLo s r2 ≤ interpHi s r2 := interpLo_le_interpHi hs r2
  rcases Nat.lt_or_ge ⌊r1⌋.toNat ⌊r2⌋.toNat with hlt | hge
  · have hstep : ⌊r1⌋.toNat + 1 < s.length := by omega
    have hhi1 : interpHi s r1 = s.getD (⌊r1⌋.toNat + 1) 0 := by
      unfold interpHi
      rw [if_pos hstep]
    have hv1 : interpolate s r1 ≤ s.getD (⌊r1⌋.toNat + 1) 0 := by
      have hlo1 : interpLo s r1 ≤ s.getD (⌊r1⌋.toNat + 1) 0 := by rw [← hhi1]; exact hlohi1
      have hd1 : 0 ≤ s.getD (⌊r1⌋.toNat + 1) 0 - interpLo s r1 := sub_nonneg.mpr hlo1
      have hm := mul_le_mul_of_nonneg_right hg1b hd1
      unfold interpolate
      rw [hhi1]
      linarith
    have hmid : s.getD (⌊r1⌋.toNat + 1) 0 ≤ s.getD (⌊r2⌋.toNat) 0 :=
      sorted_getD_mono hs (by omega) hi2len
    have hv2 : s.getD (⌊r2⌋.toNat) 0 ≤ interpolate s r2 := by
      have hd2 : 0 ≤ interpHi s r2 - interpLo s r2 := sub_nonneg.mpr hlohi2
      have hm := mul_nonneg hg2a hd2
      unfold interpolate interpLo
      unfold interpLo at hm
      linarith
    calc interpolate s r1 ≤ s.getD (⌊r1⌋.toNat + 1) 0 := hv1
      _ ≤ s.getD (⌊r2⌋.toNat) 0 := hmid
      _ ≤ interpolate s r2 := hv2
  · have heqn : ⌊r1⌋.toNat = ⌊r2⌋.toNat := by omega
    have hfeq : ⌊r1⌋ = ⌊r2⌋ := by omega
    have hlo : interpLo s r1 = interpLo s r2 := by unfold interpLo; rw [heqn]
    have hhi : interpHi s r1 = interpHi s r2 := by unfold interpHi interpLo; rw [heqn]
    have hd : 0 ≤ interpHi s r2 - interpLo s r2 := sub_nonneg.mpr hlohi2
    have hg12 : r1 - (⌊r2⌋ : ℚ) ≤ r2 - (⌊r2⌋ : ℚ) := by linarith
    have hm := mul_le_mul_of_nonneg_right hg12 hd
    unfold interpolate
    rw [hlo, hhi, hfeq]
    linarith

theorem sortQ_sorted (l : List ℚ) : List.Sorted (· ≤ ·) (sortQ l) :=
  List.sorted_insertionSort (· ≤ ·) l

theorem sortQ_length (l : List ℚ) : (sortQ l).length = l.length :=
  List.length_insertionSort (· ≤ ·) l

theorem percentile_mono (l : List ℚ) (hl : l ≠ []) {q1 q2 : ℚ}
    (h0 : 0 ≤ q1) (h12 : q1 ≤ q2) (h2 : q2 ≤ 100) :
    percentile l q1 ≤ percentile l q2 := by
  unfold percentile
  have hlen1 : 1 ≤ (sortQ l).length := by
    rw [sortQ_length]
    exact List.length_pos.mpr hl
  have hn : (0 : ℚ) ≤ ((sortQ l).length : ℚ) - 1 := by
    have h5 : (1 : ℚ) ≤ ((sortQ l).length : ℚ) := by exact_mod_cast hlen1
    linarith
  have hq1 : (0 : ℚ) ≤ q1 / 100 := div_nonneg h0 (by norm_num)
  have hqq : q1 / 100 ≤ q2 / 100 := by linarith
  have hq2 : q2 / 100 ≤ 1 := (div_le_one (by norm_num)).mpr h2
  refine interpolate_mono (sortQ_sorted l) ?_ ?_ ?_
  · exact mul_nonneg hq1 hn
  · exact mul_le_mul_of_nonneg_right hqq hn
  · calc q2 / 100 * (((sortQ l).length : ℚ) - 1)
        ≤ 1 * (((sortQ l).length : ℚ) - 1) := mul_le_mul_of_nonneg_right hq2 hn
      _ = ((sortQ l).length : ℚ) - 1 := one_mul _

/-! ### Claim theorems -/

/-- C9: for every series of length ≥ 1 the Summarizer's rounded percentiles
are monotone in the rank: p1 ≤ p25 ≤ p75 (linear interpolation over the
sorted series, rounded to 3 decimals). -/
theorem C9_percentile_monotone (l : List ℚ) (h : 1 ≤ l.length) :
    (summaryOf l).p1 ≤ (summaryOf l).p25 ∧ (summaryOf l).p25 ≤ (summaryOf l).p75 := by
  have hl : l ≠ [] := by
    intro he
    rw [he] at h
    simp at h
  exact ⟨pyRound_mono 3 (percentile_mono l hl (by norm_num) (by norm_num) (by norm_num)),
         pyRound_mono 3 (percentile_mono l hl (by norm_num) (by norm_num) (by norm_num))⟩

/-- C9 witness: the percentile monotonicity instantiated at the concrete
series [7, 3, 5]. -/
theorem C9_witness : 1 ≤ [(7 : ℚ), 3, 5].length ∧
    ((summaryOf [(7 : ℚ), 3, 5]).p1 ≤ (summaryOf [(7 : ℚ), 3, 5]).p25 ∧
     (summaryOf [(7 : ℚ), 3, 5]).p25 ≤ (summaryOf [(7 : ℚ), 3, 5]).p75) :=
  ⟨by norm_num, C9_percentile_monotone [(7 : ℚ), 3, 5] (by norm_num)⟩

/-- C8: the single-series pipeline fails with `EmptySeries` exactly when the
filter removes every sample; in that case no statistics and no chart data are
produced (the `Except` carries no `SinglePlot`). -/
theorem C8_empty_series_iff (scores : List ℚ) (m : MetricKind) :
    plotMetric scores m = .error (.emptySeries m) ↔ filterScores scores = [] := by
  unfold plotMetric
  split_ifs with h
  · simp [h]
  · simp [h]

/-- C10: on a zero-frame input the Validator returns the missing-VMAF
rejection (and in particular does not raise the `IndexError` that the
first-frame XPSNR presence check would produce). -/
theorem C10_validator_total_on_empty :
    validate_metrics [] = .ok (.rejected .missing_vmaf) := by
  norm_num [validate_metrics]

theorem xpsnrVerdict_ne_suspicious (n : ℕ) (t : ℕ × List ℚ × ℕ) :
    xpsnrVerdict n t ≠ .rejected .suspicious_vmaf := by
  obtain ⟨a, b, c⟩ := t
  unfold xpsnrVerdict
  dsimp only
  split_ifs <;> simp

theorem xpsnrVerdict_sentinel_iff (n : ℕ) (a : ℕ) (b : List ℚ) (c : ℕ) :
    xpsnrVerdict n (a, b, c) = .rejected .xpsnr_sentinel_overflow ↔
      ((a : ℚ) > (n : ℚ) * (1 / 10)) := by
  unfold xpsnrVerdict
  dsimp only
  split_ifs with h1 h2 h3 <;> simp_all

theorem not_missing_branch {frames : List FrameMetrics} (h1 : frames ≠ [])
    (h2 : ∀ f ∈ frames, (FrameMetrics.vmaf f).isSome = true) :
    ¬ (frames.map FrameMetrics.vmaf = [] ∨ none ∈ frames.map FrameMetrics.vmaf) := by
  push_neg
  constructor
  · simpa using h1
  · intro hmem
    rcases List.mem_map.mp hmem with ⟨f, hf, hfe⟩
    have h3 := h2 f hf
    rw [hfe] at h3
    simp at h3

/-- C5: for a non-empty input in which every frame carries a VMAF value, the
Validator rejects with `suspicious_vmaf` exactly when mean(VMAF) < 10 or
max(VMAF) < 20. -/
theorem C5_suspicious_vmaf_iff (frames : List FrameMetrics)
    (h1 : frames ≠ []) (h2 : ∀ f ∈ frames, (FrameMetrics.vmaf f).isSome = true) :
    validate_metrics frames = .ok (.rejected .suspicious_vmaf) ↔
      (pyMean (frames.filterMap FrameMetrics.vmaf) < 10 ∨
       pyMax (frames.filterMap FrameMetrics.vmaf) < 20) := by
  unfold validate_metrics
  rw [if_neg (not_missing_branch h1 h2)]
  by_cases hc : pyMean (frames.filterMap FrameMetrics.vmaf) < 10 ∨
      pyMax (frames.filterMap FrameMetrics.vmaf) < 20
  · rw [if_pos hc]
    simpa using hc
  · rw [if_neg hc]
    constructor
    · intro hEq
      exfalso
      rcases frames with _ | ⟨f0, rest⟩
      · exact h1 rfl
      · simp only [List.head?_cons] at hEq
        split_ifs at hEq with hx
        · rcases hscan : xpsnrScan (f0 :: rest) with e | t <;> rw [hscan] at hEq
          · simp [Except.map] at hEq
          · simp [Except.map] at hEq
            exact xpsnrVerdict_ne_suspicious _ _ hEq
        · simp at hEq
    · intro hx
      exact absurd hx hc

/-- C5 witness: a file whose single frame has VMAF exactly 0 is rejected with
`suspicious_vmaf` (mean 0 < 10). -/
theorem C5_witness :
    validate_metrics [⟨some 0, none, none, none, none, none⟩] =
      .ok (.rejected .suspicious_vmaf) :=
  (C5_suspicious_vmaf_iff [⟨some 0, none, none, none, none, none⟩]
    (by simp) (by simp)).mpr
    (by norm_num [pyMean, List.filterMap_cons, List.filterMap_nil])

theorem xpsnrFrameCheck_eq (f : FrameMetrics) {x u v : ℚ}
    (hxe : FrameMetrics.xpsnr f = some x) (hue : FrameMetrics.xpsnr_u f = some u)
    (hve : FrameMetrics.xpsnr_v f = some v) :
    xpsnrFrameCheck f = .ok (xpsnrInvalidB x,
      if xpsnrInvalidB x then none else some x,
      decide (u = 0) && decide (v = 0)) := by
  unfold xpsnrFrameCheck
  rw [hxe, hue, hve]
  by_cases hu0 : u = 0
  · simp [hu0]
  · simp [hu0]

theorem xpsnrScan_eq (frames : List FrameMetrics)
    (h : ∀ f ∈ frames, (FrameMetrics.xpsnr f).isSome = true ∧
        (FrameMetrics.xpsnr_u f).isSome = true ∧ (FrameMetrics.xpsnr_v f).isSome = true) :
    xpsnrScan frames = .ok
      ((frames.filterMap FrameMetrics.xpsnr).countP xpsnrInvalidB,
       (frames.filterMap FrameMetrics.xpsnr).filter (fun x => !xpsnrInvalidB x),
       frames.countP (fun f => decide (FrameMetrics.xpsnr_u f = some 0) &&
         decide (FrameMetrics.xpsnr_v f = some 0))) := by
  induction frames with
  | nil => rfl
  | cons f rest ih =>
    obtain ⟨hx, hu, hv⟩ := h f (List.mem_cons_self f rest)
    obtain ⟨x, hxe⟩ := Option.isSome_iff_exists.mp hx
    obtain ⟨u, hue⟩ := Option.isSome_iff_exists.mp hu
    obtain ⟨v, hve⟩ := Option.isSome_iff_exists.mp hv
    have ih2 := ih (fun g hg => h g (List.mem_cons_of_mem f hg))
    rw [xpsnrScan, xpsnrFrameCheck_eq f hxe hue hve, ih2]
    simp only [List.filterMap_cons, hxe, List.countP_cons, List.filter_cons, hue, hve]
    by_cases hinv : xpsnrInvalidB x = true
    · simp [hinv, Nat.add_comm]
    · simp only [Bool.not_eq_true] at hinv
      simp [hinv, Nat.add_comm]

/-- C6: for a non-empty input whose frames all carry the XPSNR keys (and whose
VMAF passes the earlier checks), the Validator rejects with
`xpsnr_sentinel_overflow` exactly when the number of invalid XPSNR samples
(sentinel or ≤ 0) strictly exceeds 10% of the frame count. -/
theorem C6_sentinel_iff (frames : List FrameMetrics)
    (h1 : frames ≠ [])
    (h2 : ∀ f ∈ frames, (FrameMetrics.vmaf f).isSome = true)
    (h3 : ¬ (pyMean (frames.filterMap FrameMetrics.vmaf) < 10 ∨
         pyMax (frames.filterMap FrameMetrics.vmaf) < 20))
    (h4 : ∀ f ∈ frames, (FrameMetrics.xpsnr f).isSome = true ∧
        (FrameMetrics.xpsnr_u f).isSome = true ∧ (FrameMetrics.xpsnr_v f).isSome = true) :
    validate_metrics frames = .ok (.rejected .xpsnr_sentinel_overflow) ↔
      (((frames.filterMap FrameMetrics.xpsnr).countP xpsnrInvalidB : ℚ) >
        (frames.length : ℚ) * (1 / 10)) := by
  unfold validate_metrics
  rw [if_neg (not_missing_branch h1 h2), if_neg h3, xpsnrScan_eq frames h4]
  rcases frames with _ | ⟨f0, rest⟩
  · exact absurd rfl h1
  · simp only [List.head?_cons]
    rw [if_pos (h4 f0 (List.mem_cons_self f0 rest)).1]
    simp only [Except.map, Except.ok.injEq]
    exact xpsnrVerdict_sentinel_iff _ _ _ _

/-- C6 witness: 15 frames, 3 of which carry an invalid XPSNR sample
(value 0, i.e. ≤ 0), are rejected with `xpsnr_sentinel_overflow`
(3 > 1.5 = 10% of 15). -/
theorem C6_witness :
    validate_metrics
      [⟨some 95, none, none, some 0, some 1, some 1⟩,
       ⟨some 95, none, none, some 0, some 1, some 1⟩,
       ⟨some 95, none, none, some 0, some 1, some 1⟩,
       ⟨some 95, none, none, some 50, some 1, some 1⟩,
       ⟨some 95, none, none, some 50, some 1, some 1⟩,
       ⟨some 95, none, none, some 50, some 1, some 1⟩,
       ⟨some 95, none, none, some 50, some 1, some 1⟩,
       ⟨some 95, none, none, some 50, some 1, some 1⟩,
       ⟨some 95, none, none, some 50, some 1, some 1⟩,
       ⟨some 95, none, none, some 50, some 1, some 1⟩,
       ⟨some 95, none, none, some 50, some 1, some 1⟩,
       ⟨some 95, none, none, some 50, some 1, some 1⟩,
       ⟨some 95, none, none, some 50, some 1, some 1⟩,
       ⟨some 95, none, none, some 50, some 1, some 1⟩,
       ⟨some 95, none, none, some 50, some 1, some 1⟩] =
      .ok (.rejected .xpsnr_sentinel_overflow) :=
  (C6_sentinel_iff _ (by simp) (by simp)
    (by
      norm_num [pyMean, pyMax, List.filterMap_cons, List.filterMap_nil])
    (by simp)).mpr
    (by
      norm_num [List.filterMap_cons, List.filterMap_nil, List.countP_cons, List.countP_nil,
        xpsnrInvalidB, MAX_DOUBLE])

theorem percentile_single (v q : ℚ) : percentile [v] q = v := by
  unfold percentile sortQ interpolate interpLo interpHi
  norm_num [List.insertionSort]

theorem pyMean_single (v : ℚ) : pyMean [v] = v := by
  norm_num [pyMean]

theorem summaryOf_single (v : ℚ) :
    summaryOf [v] = ⟨pyRound v 3, pyRound v 3, pyRound v 3, pyRound v 3⟩ := by
  unfold summaryOf
  rw [percentile_single, percentile_single, percentile_single, pyMean_single]

theorem pyRound_intCast (z : ℤ) (n : ℕ) : pyRound (z : ℚ) n = z := by
  unfold pyRound pyRoundInt
  have hcast : ((z : ℚ) * 10 ^ n) = ((z * 10 ^ n : ℤ) : ℚ) := by push_cast; ring
  rw [hcast, Int.floor_intCast]
  rw [if_pos (by linarith : 2 * ((z * 10 ^ n : ℤ) : ℚ) < 2 * ((z * 10 ^ n : ℤ) : ℚ) + 1)]
  have hp : (0 : ℚ) < 10 ^ n := by positivity
  field_simp

theorem pyHarmonicMean_single (v : ℚ) (h : 0 < v) : pyHarmonicMean [v] = some v := by
  unfold pyHarmonicMean
  have hc1 : ¬ ([v] = [] ∨ ([v].any fun x => decide (x < 0)) = true) := by
    simp
    exact le_of_lt h
  have hc2 : ¬ (([v].any fun x => decide (x = 0)) = true) := by
    simp
    exact ne_of_gt h
  rw [if_neg hc1, if_neg hc2]
  simp [one_div_one_div]

theorem multiSummary_single (v : ℚ) (h : 0 < v) :
    multiSummary [v] =
      some ⟨[v], pyRound v 2, pyRound v 2, pyRound v 3, pyRound v 3, pyRound v 3⟩ := by
  unfold multiSummary
  rw [pyHarmonicMean_single v h]
  simp only [pyMean_single, percentile_single]

/-- C1 counterexample: the claim says that for VMAF the Filter returns the
series unchanged, but the code's filter drops a VMAF sample of 100 (and the
single-sample series then even fails as empty). -/
theorem C1_counterexample :
    plotMetric [(100 : ℚ)] .VMAF = .error (.emptySeries .VMAF) ∧
    specFilter .VMAF [(100 : ℚ)] = [100] ∧
    filterScores [(100 : ℚ)] ≠ specFilter .VMAF [(100 : ℚ)] := by
  have hfs : filterScores [(100 : ℚ)] = [] := by
    norm_num [filterScores, MAX_DOUBLE]
  refine ⟨?_, rfl, ?_⟩
  · unfold plotMetric
    rw [if_pos hfs]
  · rw [hfs]
    simp [specFilter]

/-- C1 amended: the Filter applies one metric-independent rule — drop a
sample iff it equals the sentinel, is ≤ 0, or is ≥ 100 — and for every metric
kind (including VMAF and SSIM) the plotted series is that filtered series. -/
theorem C1_amended (m : MetricKind) (scores : List ℚ) :
    filterScores scores = specFilter .PSNR scores ∧
    ∀ r, plotMetric scores m = .ok r → r.series = filterScores scores := by
  constructor
  · unfold filterScores specFilter
    apply List.filter_congr
    intro x _
    by_cases h1 : x = MAX_DOUBLE
    · simp [h1]
    · by_cases h2 : (0 : ℚ) < x
      · by_cases h3 : x < 100
        · simp [h1, h2, h3, not_le.mpr h2, not_le.mpr h3]
        · simp [h1, h2, h3, not_le.mpr h2, not_lt.mp h3]
      · simp [h1, h2, not_lt.mp h2]
  · intro r hr
    unfold plotMetric at hr
    split_ifs at hr
    injection hr with h2
    subst h2
    rfl

/-- C1 witness: for PSNR the filter drops the sentinel sample and the plotted
series is exactly the filtered one. -/
theorem C1_witness :
    plotMetric [MAX_DOUBLE, (50 : ℚ)] .PSNR =
      .ok ⟨[50], ⟨50, 50, 50, 50⟩, ((50 : ℚ), 50), 5⟩ ∧
    (⟨[(50 : ℚ)], ⟨50, 50, 50, 50⟩, ((50 : ℚ), 50), 5⟩ : SinglePlot).series =
      filterScores [MAX_DOUBLE, (50 : ℚ)] := by
  have hfs : filterScores [MAX_DOUBLE, (50 : ℚ)] = [50] := by
    norm_num [filterScores, MAX_DOUBLE]
  have hsum : summaryOf [(50 : ℚ)] = ⟨50, 50, 50, 50⟩ := by
    rw [summaryOf_single]
    have h50 : pyRound ((50 : ℤ) : ℚ) 3 = ((50 : ℤ) : ℚ) := by
      rw [pyRound_intCast]
    norm_num at h50
    rw [h50]
  have hev : plotMetric [MAX_DOUBLE, (50 : ℚ)] .PSNR =
      .ok ⟨[50], ⟨50, 50, 50, 50⟩, ((50 : ℚ), 50), 5⟩ := by
    unfold plotMetric
    simp only [hfs, hsum]
    rw [if_neg (by simp : ¬([50] : List ℚ) = [])]
    norm_num [scalePlan, pyInt, pyMax]
  exact ⟨hev, (C1_amended .PSNR [MAX_DOUBLE, (50 : ℚ)]).2 _ hev⟩

theorem collectSummaries_series (scoress : List (List ℚ)) (es : List MultiEntry)
    (h : collectSummaries scoress = some es) : es.map MultiEntry.series = scoress := by
  induction scoress generalizing es with
  | nil =>
    rw [collectSummaries] at h
    injection h with h2
    subst h2
    rfl
  | cons v t ih =>
    rw [collectSummaries] at h
    rcases hms : multiSummary v with _ | e <;> rw [hms] at h
    · exact absurd h (by simp)
    · rcases hct : collectSummaries t with _ | es2 <;> rw [hct] at h
      · exact absurd h (by simp)
      · injection h with h2
        subst h2
        have hse : MultiEntry.series e = v := by
          rcases hh : pyHarmonicMean v with _ | q <;> rw [multiSummary, hh] at hms
          · exact absurd hms (by simp)
          · injection hms with h3
            rw [← h3]
        rw [List.map_cons, hse, ih es2 hct]

/-- C2 counterexample: the multi-series overlay computes its statistics over
the raw series — for the series [100, 50] the displayed mean is 75, while the
mean over the filtered series ([50], the sample 100 being dropped by the
Filter) would be 50. -/
theorem C2_counterexample :
    plotMultiMetrics [[(100 : ℚ), 50]] =
      some ⟨[⟨[100, 50], 75, 6667 / 100, 101 / 2, 125 / 2, 175 / 2⟩], (50, 100)⟩ ∧
    filterScores [(100 : ℚ), 50] = [50] ∧
    pyRound (pyMean [(100 : ℚ), 50]) 2 = 75 ∧
    pyRound (pyMean (filterScores [(100 : ℚ), 50])) 2 = 50 ∧
    (75 : ℚ) ≠ 50 := by
  have hfs : filterScores [(100 : ℚ), 50] = [50] := by
    norm_num [filterScores, MAX_DOUBLE]
  have hh : pyHarmonicMean [(100 : ℚ), 50] = some (200 / 3) := by
    rw [pyHarmonicMean]
    norm_num
    exact fun h => absurd h (List.cons_ne_nil _ _)
  have hp1 : percentile [(100 : ℚ), 50] 1 = 101 / 2 := by
    norm_num [percentile, sortQ, List.insertionSort, List.orderedInsert, interpolate,
      interpLo, interpHi]
  have hp25 : percentile [(100 : ℚ), 50] 25 = 125 / 2 := by
    norm_num [percentile, sortQ, List.insertionSort, List.orderedInsert, interpolate,
      interpLo, interpHi]
  have hp75 : percentile [(100 : ℚ), 50] 75 = 175 / 2 := by
    norm_num [percentile, sortQ, List.insertionSort, List.orderedInsert, interpolate,
      interpLo, interpHi]
  have hms : multiSummary [(100 : ℚ), 50] =
      some ⟨[100, 50], 75, 6667 / 100, 101 / 2, 125 / 2, 175 / 2⟩ := by
    rw [multiSummary, hh, hp1, hp25, hp75]
    norm_num [pyRound, pyRoundInt, pyMean]
  have hsp1 : seriesP1 [(100 : ℚ), 50] = 101 / 2 := by
    rw [seriesP1, hp1]
    norm_num [pyRound, pyRoundInt]
  have hylim : plotMultiYlim [[(100 : ℚ), 50]] = (50, 100) := by
    rw [plotMultiYlim, multiYminRaw]
    simp only [List.foldl_cons, List.foldl_nil, hsp1]
    norm_num [pyInt]
  refine ⟨?_, hfs, ?_, ?_, by norm_num⟩
  · rw [plotMultiMetrics, collectSummaries, hms, collectSummaries, hylim]
  · norm_num [pyRound, pyRoundInt, pyMean]
  · rw [hfs, pyMean_single]
    have h50 : pyRound ((50 : ℤ) : ℚ) 2 = ((50 : ℤ) : ℚ) := pyRound_intCast 50 2
    norm_num at h50
    rw [h50]

/-- C2 amended: the single-series path computes its statistics over the
filtered series, while the multi-series overlay path computes its statistics
over the raw series exactly as passed in. -/
theorem C2_amended :
    (∀ scores m r, plotMetric scores m = .ok r →
        r.stats = summaryOf (filterScores scores)) ∧
    (∀ scoress p, plotMultiMetrics scoress = some p →
        p.entries.map MultiEntry.series = scoress) := by
  constructor
  · intro scores m r hr
    unfold plotMetric at hr
    split_ifs at hr
    injection hr with h2
    subst h2
    rfl
  · intro scoress p hp
    unfold plotMultiMetrics at hp
    rcases hcs : collectSummaries scoress with _ | es <;> rw [hcs] at hp
    · exact absurd hp (by simp)
    · injection hp with h2
      subst h2
      exact collectSummaries_series scoress es hcs

/-- C2 witness: the amended claim instantiated — the single-series plot of
[30, 100] (VMAF) carries the statistics of the filtered series [30], and the
overlay of [[100, 50]] carries the raw series. -/
theorem C2_witness :
    plotMetric [(30 : ℚ), 100] .VMAF =
      .ok ⟨[30], ⟨30, 30, 30, 30⟩, ((30 : ℚ), 100), 5⟩ ∧
    (⟨[(30 : ℚ)], ⟨30, 30, 30, 30⟩, ((30 : ℚ), 100), 5⟩ : SinglePlot).stats =
      summaryOf (filterScores [(30 : ℚ), 100]) := by
  have hfs : filterScores [(30 : ℚ), 100] = [30] := by
    norm_num [filterScores, MAX_DOUBLE]
  have hsum : summaryOf [(30 : ℚ)] = ⟨30, 30, 30, 30⟩ := by
    rw [summaryOf_single]
    have h30 : pyRound ((30 : ℤ) : ℚ) 3 = ((30 : ℤ) : ℚ) := pyRound_intCast 30 3
    norm_num at h30
    rw [h30]
  have hev : plotMetric [(30 : ℚ), 100] .VMAF =
      .ok ⟨[30], ⟨30, 30, 30, 30⟩, ((30 : ℚ), 100), 5⟩ := by
    unfold plotMetric
    simp only [hfs, hsum]
    rw [if_neg (by simp : ¬([30] : List ℚ) = [])]
    norm_num [scalePlan, pyInt]
  exact ⟨hev, C2_amended.1 [(30 : ℚ), 100] .VMAF _ hev⟩

/-- C3 counterexample: the code truncates (`int(max + 1)`) instead of taking
`ceil(max) + 1` — for the series with min 30.2 and max 58.9 the code yields
upper bound 59, not the claimed 60. -/
theorem C3_counterexample :
    xpsnrScale [(151 / 5 : ℚ), 589 / 10] = (29, 59, 5) ∧
    specXpsnrScale [(151 / 5 : ℚ), 589 / 10] = (29, 60, 5) ∧
    ((29, 59, 5) : ℤ × ℤ × ℤ) ≠ (29, 60, 5) := by
  have hmin : pyMin [(151 / 5 : ℚ), 589 / 10] = 151 / 5 := by
    norm_num [pyMin, min_def]
  have hmax : pyMax [(151 / 5 : ℚ), 589 / 10] = 589 / 10 := by
    norm_num [pyMax, max_def]
  refine ⟨?_, ?_, by decide⟩
  · rw [xpsnrScale, hmin, hmax]
    norm_num [pyInt, max_def, min_def]
  · have hce : ⌈(589 / 10 : ℚ)⌉ = 59 := by
      rw [Int.ceil_eq_iff]
      norm_num
    rw [specXpsnrScale, hmin, hmax, hce]
    norm_num [max_def, min_def]

/-- C3 amended: for a non-empty series of positive samples the code's scale is
lower `= max(20, ⌊min⌋ − 1)`, upper `= min(60, ⌊max⌋ + 1)` (truncation of
`max + 1`, not `⌈max⌉ + 1`), step 5 iff upper − lower > 20, else 2; the
example series (min 30.2, max 58.9) yields (29, 59, 5). -/
theorem C3_amended (scores : List ℚ) (h1 : scores ≠ []) (h2 : ∀ x ∈ scores, 0 < x) :
    xpsnrScale scores =
      (max 20 (⌊pyMin scores⌋ - 1), min 60 (⌊pyMax scores⌋ + 1),
       if min 60 (⌊pyMax scores⌋ + 1) - max 20 (⌊pyMin scores⌋ - 1) > 20 then 5 else 2) := by
  have hmin := pyMin_pos scores h1 h2
  have hmax := pyMax_pos scores h1 h2
  have hup : pyInt (pyMax scores + 1) = ⌊pyMax scores⌋ + 1 := by
    unfold pyInt
    rw [if_pos (by linarith : (0 : ℚ) ≤ pyMax scores + 1),
        show pyMax scores + 1 = pyMax scores + ((1 : ℤ) : ℚ) by norm_num,
        Int.floor_add_int]
  have hlow : max 20 (pyInt (pyMin scores - 1)) = max 20 (⌊pyMin scores⌋ - 1) := by
    by_cases hge : (1 : ℚ) ≤ pyMin scores
    · have hq : pyInt (pyMin scores - 1) = ⌊pyMin scores⌋ - 1 := by
        unfold pyInt
        rw [if_pos (by linarith : (0 : ℚ) ≤ pyMin scores - 1),
            show pyMin scores - 1 = pyMin scores - ((1 : ℤ) : ℚ) by norm_num,
            Int.floor_sub_int]
      rw [hq]
    · push_neg at hge
      have hfl : ⌊pyMin scores⌋ = 0 :=
        Int.floor_eq_zero_iff.mpr (Set.mem_Ico.mpr ⟨le_of_lt hmin, hge⟩)
      have hneg : pyInt (pyMin scores - 1) = 0 := by
        unfold pyInt
        rw [if_neg (by linarith : ¬ (0 : ℚ) ≤ pyMin scores - 1)]
        have h5 : ⌈pyMin scores - 1⌉ ≤ 0 := Int.ceil_le.mpr (by push_cast; linarith)
        have h6 : (-1 : ℤ) < ⌈pyMin scores - 1⌉ := Int.lt_ceil.mpr (by push_cast; linarith)
        omega
      rw [hneg, hfl]
      decide
  unfold xpsnrScale
  rw [hup, hlow]

/-- C3 witness: the amended scale rule at the series [25, 30] — bounds
(24, 31), span 7 ≤ 20, hence grid step 2. -/
theorem C3_witness : xpsnrScale [(25 : ℚ), 30] = (24, 31, 2) := by
  have h := C3_amended [(25 : ℚ), 30] (by simp)
    (by intro x hx; rcases List.mem_cons.mp hx with rfl | hx2 <;> simp_all)
  rw [h]
  have hmin : pyMin [(25 : ℚ), 30] = 25 := by norm_num [pyMin, min_def]
  have hmax : pyMax [(25 : ℚ), 30] = 30 := by norm_num [pyMax, max_def]
  rw [hmin, hmax]
  norm_num [max_def, min_def]

/-- C7 counterexample: for the single series [1, 2], the minimum 1st
percentile is 1.01 but `plt.ylim(int(ymin), 100)` truncates the lower bound
to 1 — the shared lower bound is not the minimum of the 1st percentiles. -/
theorem C7_counterexample :
    plotMultiYlim [[(1 : ℚ), 2]] = (1, 100) ∧
    seriesP1 [(1 : ℚ), 2] = 101 / 100 ∧
    ((1 : ℤ) : ℚ) ≠ 101 / 100 := by
  have hp : seriesP1 [(1 : ℚ), 2] = 101 / 100 := by
    norm_num [seriesP1, percentile, sortQ, List.insertionSort, List.orderedInsert,
      interpolate, interpLo, interpHi, pyRound, pyRoundInt]
  refine ⟨?_, hp, by norm_num⟩
  rw [plotMultiYlim, multiYminRaw]
  simp only [List.foldl_cons, List.foldl_nil, hp]
  norm_num [pyInt]

/-- C7 amended: the overlay's upper bound is always 100 and its lower bound is
the int-truncation of the minimum of the series' rounded 1st percentiles (the
running minimum is seeded at 100), set to 90 exactly when that minimum exceeds
90; the minimum is attained by some series whenever every percentile is
≤ 100 and at least one series exists. -/
theorem C7_amended (scoress : List (List ℚ)) (h1 : scoress ≠ [])
    (h2 : ∀ p ∈ scoress.map seriesP1, p ≤ 100) :
    ((scoress.map seriesP1).foldl min 100 ∈ scoress.map seriesP1 ∧
      ∀ p ∈ scoress.map seriesP1, (scoress.map seriesP1).foldl min 100 ≤ p) ∧
    plotMultiYlim scoress =
      (if (scoress.map seriesP1).foldl min 100 > 90 then 90
       else pyInt ((scoress.map seriesP1).foldl min 100), 100) := by
  have hfold : multiYminRaw scoress = (scoress.map seriesP1).foldl min 100 := by
    unfold multiYminRaw
    have hfeq : (fun (y : ℚ) v => if y > seriesP1 v then seriesP1 v else y) =
        fun (y : ℚ) v => min y (seriesP1 v) := by
      funext y v
      rw [min_def]
      rcases le_or_lt y (seriesP1 v) with h | h
      · rw [if_pos h, if_neg (not_lt.mpr h)]
      · rw [if_pos h, if_neg (not_le.mpr h)]
    rw [hfeq, List.foldl_map]
  refine ⟨⟨?_, fun p hp => foldl_min_le_mem _ _ hp⟩, ?_⟩
  · rcases foldl_min_mem_cons 100 (scoress.map seriesP1) with h | h
    · have hne : scoress.map seriesP1 ≠ [] := by simpa using h1
      obtain ⟨p0, hp0⟩ := List.exists_mem_of_ne_nil _ hne
      have hle : (scoress.map seriesP1).foldl min 100 ≤ p0 := foldl_min_le_mem _ _ hp0
      have hp0eq : p0 = 100 := le_antisymm (h2 p0 hp0) (by rw [← h]; exact hle)
      rw [h, ← hp0eq]
      exact hp0
    · exact h
  · unfold plotMultiYlim
    rw [hfold]
    by_cases hc : (scoress.map seriesP1).foldl min 100 > 90
    · rw [if_pos hc, if_pos hc]
      norm_num [pyInt]
    · rw [if_neg hc, if_neg hc]

/-- C7 witness: the amended rule at the single series [50, 60] — its rounded
1st percentile is 50.1, which truncates to the lower bound 50. -/
theorem C7_witness : plotMultiYlim [[(50 : ℚ), 60]] = (50, 100) := by
  have hp : seriesP1 [(50 : ℚ), 60] = 501 / 10 := by
    norm_num [seriesP1, percentile, sortQ, List.insertionSort, List.orderedInsert,
      interpolate, interpLo, interpHi, pyRound, pyRoundInt]
  have h2 : ∀ p ∈ [[(50 : ℚ), 60]].map seriesP1, p ≤ 100 := by
    intro p hpm
    simp only [List.map_cons, List.map_nil, hp, List.mem_singleton] at hpm
    rw [hpm]
    norm_num
  have h := (C7_amended [[(50 : ℚ), 60]] (by simp) h2).2
  rw [h]
  simp only [List.map_cons, List.map_nil, List.foldl_cons, List.foldl_nil, hp]
  norm_num [min_def, pyInt]

theorem validate_accepted_95 :
    validate_metrics [⟨some 95, none, none, none, none, none⟩] = .ok .accepted := by
  norm_num [validate_metrics, pyMean, pyMax, List.filterMap_cons, List.filterMap_nil,
    List.head?_cons]
  exact fun h => Option.noConfusion h

theorem validate_accepted_50 :
    validate_metrics [⟨some 50, none, none, none, none, none⟩] = .ok .accepted := by
  norm_num [validate_metrics, pyMean, pyMax, List.filterMap_cons, List.filterMap_nil,
    List.head?_cons]
  exact fun h => Option.noConfusion h

theorem seriesP1_single_95 : seriesP1 [(95 : ℚ)] = 95 := by
  rw [seriesP1, percentile_single]
  have h := pyRound_intCast 95 3
  norm_num at h
  rw [h]

theorem seriesP1_single_50 : seriesP1 [(50 : ℚ)] = 50 := by
  rw [seriesP1, percentile_single]
  have h := pyRound_intCast 50 3
  norm_num at h
  rw [h]

/-- C4 (code bug): with a single requested metric over two input files, `main`
dispatches on `len(args.metrics) == 1` and renders `plot_metric(to_plot[0])`:
only the first file's series [95] appears in the output and the second file's
series [50] is silently dropped, even though both files were validated and
collected.  With two requested metrics the very same inputs would be rendered
as an overlay containing both series. -/
theorem C4_single_metric_drops_files :
    processMetric 1
      [[⟨some 95, none, none, none, none, none⟩],
       [⟨some 50, none, none, none, none, none⟩]] .VMAF =
      .ok (.single ⟨[95], ⟨95, 95, 95, 95⟩, ((95 : ℚ), 100), 5⟩) ∧
    processMetric 2
      [[⟨some 95, none, none, none, none, none⟩],
       [⟨some 50, none, none, none, none, none⟩]] .VMAF =
      .ok (.multi ⟨[⟨[95], 95, 95, 95, 95, 95⟩, ⟨[50], 50, 50, 50, 50, 50⟩],
        (50, 100)⟩) := by
  have hload : loadAll
      [[⟨some 95, none, none, none, none, none⟩],
       [⟨some 50, none, none, none, none, none⟩]] .VMAF = .ok [[95], [50]] := by
    rw [loadAll, loadChecked, validate_accepted_95]
    rw [loadAll, loadChecked, validate_accepted_50]
    rw [loadAll]
    norm_num [extractSeries, metricValue]
  have hr95 : pyRound ((95 : ℚ)) 3 = 95 := by
    have h := pyRound_intCast 95 3
    norm_num at h
    rw [h]
  have hr95b : pyRound ((95 : ℚ)) 2 = 95 := by
    have h := pyRound_intCast 95 2
    norm_num at h
    rw [h]
  have hr50 : pyRound ((50 : ℚ)) 3 = 50 := by
    have h := pyRound_intCast 50 3
    norm_num at h
    rw [h]
  have hr50b : pyRound ((50 : ℚ)) 2 = 50 := by
    have h := pyRound_intCast 50 2
    norm_num at h
    rw [h]
  have hsum95 : summaryOf [(95 : ℚ)] = ⟨95, 95, 95, 95⟩ := by
    rw [summaryOf_single, hr95]
  have hplot : plotMetric [(95 : ℚ)] .VMAF =
      .ok ⟨[95], ⟨95, 95, 95, 95⟩, ((95 : ℚ), 100), 5⟩ := by
    have hfs : filterScores [(95 : ℚ)] = [95] := by
      norm_num [filterScores, MAX_DOUBLE]
    unfold plotMetric
    simp only [hfs, hsum95]
    rw [if_neg (by simp : ¬([95] : List ℚ) = [])]
    norm_num [scalePlan, pyInt]
  have hm95 : multiSummary [(95 : ℚ)] = some ⟨[95], 95, 95, 95, 95, 95⟩ := by
    rw [multiSummary_single 95 (by norm_num), hr95, hr95b]
  have hm50 : multiSummary [(50 : ℚ)] = some ⟨[50], 50, 50, 50, 50, 50⟩ := by
    rw [multiSummary_single 50 (by norm_num), hr50, hr50b]
  have hylim : plotMultiYlim [[(95 : ℚ)], [(50 : ℚ)]] = (50, 100) := by
    rw [plotMultiYlim, multiYminRaw]
    simp only [List.foldl_cons, List.foldl_nil, seriesP1_single_95, seriesP1_single_50]
    norm_num [pyInt]
  constructor
  · rw [processMetric, hload]
    norm_num [hplot]
  · rw [processMetric, hload]
    dsimp only
    rw [if_neg (by norm_num : ¬ (2 : ℕ) = 1)]
    rw [plotMultiMetrics, collectSummaries, hm95, collectSummaries, hm50,
      collectSummaries, hylim]
